import Mathlib

/-!
Shallow embedding of the ecodemand cpufreq governor
(`src/cpufreq_ecodemand.c`), covering the load computation
(`eco_calculate_load`) and the step decision logic (`eco_dbs_update`),
together with theorems about the governor's documented properties.

Machine arithmetic: `u64` and `unsigned int` values are modelled as `Nat`
reduced modulo `2 ^ 64` / `2 ^ 32` at every operation where the C code can
wrap; the lone `int` quantity (`effective_load`) is modelled as `Int` with
the `(int)` cast made explicit.
-/

namespace Ecodemand

/-- Modulus of the C `unsigned int` type (32 bits on the targets the
driver builds for). -/
def U32 : Nat := 2 ^ 32

/-- Modulus of the C `u64` type. -/
def U64 : Nat := 2 ^ 64

/-- Wrapping subtraction of `u64` values: `a - b` computed modulo
`2 ^ 64`, for operands already reduced (`a, b < 2 ^ 64`). -/
def sub64 (a b : Nat) : Nat := (U64 + a - b) % U64

/-- Per-CPU accounting state, `struct eco_cpu_stats` (lines 36-39 of the
source): cumulative wall time and busy time stored at the previous tick. -/
structure EcoCpuStats where
  prev_total_time : Nat
  prev_busy_time : Nat
deriving DecidableEq

/-- One TimeSource reading for a CPU: the idle time returned by
`get_cpu_idle_time` and the wall time written through its out-parameter
(line 83 of the source). -/
structure CpuSample where
  cur_idle_time : Nat
  cur_wall_time : Nat
deriving DecidableEq

/-- Tunables, `struct eco_tuners` (lines 41-48 of the source). -/
structure EcoTuners where
  up_threshold : Nat
  down_threshold : Nat
  freq_step : Nat
  sampling_rate : Nat
  sampling_down_factor : Nat
  powersave_bias : Int
deriving DecidableEq

/-- The frequency bounds of the policy read at a tick: `policy->min`,
`policy->cur`, `policy->max` (all `unsigned int` in the source). -/
structure PolicyBounds where
  min : Nat
  cur : Nat
  max : Nat
deriving DecidableEq

/-- The rounding hint passed to `__cpufreq_driver_target`:
`CPUFREQ_RELATION_H` on step-up (line 147), `CPUFREQ_RELATION_L` on
step-down (line 162). -/
inductive CpufreqRelation where
  | RELATION_L
  | RELATION_H
deriving DecidableEq

/-- A frequency request passed to the Actuator: the target frequency and
the rounding relation. -/
structure FreqRequest where
  target : Nat
  relation : CpufreqRelation
deriving DecidableEq

/-- Line 87 of the source: `dt = cur_wall_time - st->prev_total_time`
(`u64` wrapping subtraction). -/
def eco_unit_dt (st : EcoCpuStats) (s : CpuSample) : Nat :=
  sub64 s.cur_wall_time st.prev_total_time

/-- Line 88 of the source:
`db = dt - (cur_idle_time - (st->prev_total_time - st->prev_busy_time))`
(`u64` wrapping subtractions). -/
def eco_unit_db (st : EcoCpuStats) (s : CpuSample) : Nat :=
  sub64 (eco_unit_dt st s)
    (sub64 s.cur_idle_time (sub64 st.prev_total_time st.prev_busy_time))

/-- Lines 91-92 of the source: the per-CPU stats stored back for the next
sample, `prev_total_time = cur_wall_time` and
`prev_busy_time = cur_wall_time - cur_idle_time`. -/
def eco_unit_update (_st : EcoCpuStats) (s : CpuSample) : EcoCpuStats :=
  { prev_total_time := s.cur_wall_time
    prev_busy_time := sub64 s.cur_wall_time s.cur_idle_time }

/-- The `for_each_cpu` loop of `eco_calculate_load` (lines 78-98): for
each CPU, compute the deltas, store the updated stats, and accumulate the
busy and wall deltas into the running totals only when `dt > 0`.  The
totals are `u64` accumulators.  Returns the updated stats list and final
`(total_busy_time, total_wall_time)`. -/
def eco_sample_loop :
    List (EcoCpuStats × CpuSample) → Nat → Nat → List EcoCpuStats × Nat × Nat
  | [], total_busy_time, total_wall_time => ([], total_busy_time, total_wall_time)
  | (st, s) :: rest, total_busy_time, total_wall_time =>
      if 0 < eco_unit_dt st s then
        let r := eco_sample_loop rest
          ((total_busy_time + eco_unit_db st s) % U64)
          ((total_wall_time + eco_unit_dt st s) % U64)
        (eco_unit_update st s :: r.1, r.2)
      else
        let r := eco_sample_loop rest total_busy_time total_wall_time
        (eco_unit_update st s :: r.1, r.2)

/-- Lines 100-110 of the source, `eco_calculate_load`: if any wall time
was accumulated, `raw_usage = div64_u64(total_busy_time * 100,
total_wall_time)` (the product wraps in `u64`, the quotient is truncated
into an `unsigned int`), then `load = (raw_usage * policy->cur) /
policy->max` in `unsigned int` arithmetic; otherwise the load stays 0. -/
def eco_calculate_load (units : List (EcoCpuStats × CpuSample))
    (cur maxf : Nat) : Nat :=
  let r := eco_sample_loop units 0 0
  let total_busy_time := r.2.1
  let total_wall_time := r.2.2
  if 0 < total_wall_time then
    let raw_usage := ((total_busy_time * 100) % U64 / total_wall_time) % U32
    ((raw_usage * cur) % U32) / maxf
  else 0

/-- The `(int)` cast applied to an `unsigned int` value (line 129 of the
source), with two's complement semantics. -/
def int_of_u32 (n : Nat) : Int :=
  if n % U32 < 2 ^ 31 then ((n % U32 : Nat) : Int)
  else ((n % U32 : Nat) : Int) - (U32 : Int)

/-- Lines 129-133 of the source: `effective_load = (int)load -
powersave_bias`, clamped into `[0, 100]`. -/
def eco_effective_load (load : Nat) (powersave_bias : Int) : Int :=
  let e := int_of_u32 load - powersave_bias
  let e := if e < 0 then 0 else e
  if 100 < e then 100 else e

/-- Lines 136-138 of the source: `freq_step_khz = (policy->max *
freq_step) / 100` in `unsigned int` arithmetic, coerced to a minimum
1000 kHz step when the computed value is 0. -/
def eco_freq_step_khz (maxf freq_step : Nat) : Nat :=
  let s := ((maxf * freq_step) % U32) / 100
  if s = 0 then 1000 else s

/-- Lines 142-148 of the source, the above-up_threshold branch:
`down_count` is reset to 0 and, if `cur < max`, a request for
`cur + freq_step_khz` capped at `max` is emitted with relation `H`.
The addition is `unsigned int` arithmetic. -/
def eco_up_branch (b : PolicyBounds) (freq_step_khz : Nat) :
    Nat × Option FreqRequest :=
  if b.cur < b.max then
    let next_freq := (b.cur + freq_step_khz) % U32
    let next_freq := if b.max < next_freq then b.max else next_freq
    (0, some ⟨next_freq, CpufreqRelation.RELATION_H⟩)
  else (0, none)

/-- Lines 152-159 of the source, the target of a firing step-down:
`cur - freq_step_khz` when `cur > freq_step_khz`, else `min`, finally
clamped to at least `min`. -/
def eco_down_target (minf cur freq_step_khz : Nat) : Nat :=
  let next_freq := if freq_step_khz < cur then cur - freq_step_khz else minf
  if next_freq < minf then minf else next_freq

/-- Lines 150-165 of the source, the below-down_threshold branch:
`down_count` is incremented (`unsigned int` arithmetic); once it reaches
`sampling_down_factor` it is reset to 0 and, if `cur > min`, a step-down
request is emitted with relation `L`. -/
def eco_down_branch (b : PolicyBounds) (freq_step_khz down_count
    sampling_down_factor : Nat) : Nat × Option FreqRequest :=
  let down_count := (down_count + 1) % U32
  if sampling_down_factor ≤ down_count then
    if b.min < b.cur then
      (0, some ⟨eco_down_target b.min b.cur freq_step_khz,
        CpufreqRelation.RELATION_L⟩)
    else (0, none)
  else (down_count, none)

/-- The decision part of `eco_dbs_update` (lines 129-169 of the source),
taking the load already computed by `eco_calculate_load` (in the source
the call on line 121 produces it).  The comparisons against the
thresholds are done on the clamped `effective_load`, which always lies in
`[0, 100]`, so the C `int`-vs-`unsigned` comparisons coincide with the
`Int` comparisons used here.  Returns the new `down_count` and the
request passed to `__cpufreq_driver_target`, if any. -/
def eco_dbs_update (t : EcoTuners) (b : PolicyBounds) (down_count : Nat)
    (load : Nat) : Nat × Option FreqRequest :=
  let effective_load := eco_effective_load load t.powersave_bias
  let freq_step_khz := eco_freq_step_khz b.max t.freq_step
  if (t.up_threshold : Int) < effective_load then
    eco_up_branch b freq_step_khz
  else if effective_load < (t.down_threshold : Int) then
    eco_down_branch b freq_step_khz down_count t.sampling_down_factor
  else (0, none)

/-- One full tick of `eco_dbs_update` (lines 113-170): the load is
computed from the sampler state and the decision logic is applied. -/
def eco_dbs_tick (t : EcoTuners) (b : PolicyBounds) (down_count : Nat)
    (units : List (EcoCpuStats × CpuSample)) : Nat × Option FreqRequest :=
  eco_dbs_update t b down_count (eco_calculate_load units b.cur b.max)

/-- A run of consecutive ticks of the decision logic with fixed tuners
and bounds: threads `down_count` through the ticks and records the
request (or absence of one) emitted at each tick. -/
def eco_run (t : EcoTuners) (b : PolicyBounds) :
    Nat → List Nat → Nat × List (Option FreqRequest)
  | down_count, [] => (down_count, [])
  | down_count, load :: loads =>
      let r := eco_dbs_update t b down_count load
      let rest := eco_run t b r.1 loads
      (rest.1, r.2 :: rest.2)

/-- The divisors of the divisions executed by `eco_calculate_load` on a
tick, in order: when wall time was accumulated, the division by
`total_wall_time` (line 104) and the division by `policy->max`
(line 107); otherwise none. -/
def eco_load_divisors (units : List (EcoCpuStats × CpuSample))
    (maxf : Nat) : List Nat :=
  let total_wall_time := (eco_sample_loop units 0 0).2.2
  if 0 < total_wall_time then [total_wall_time, maxf] else []

/-- The divisors of every division executed during one tick: those of
`eco_calculate_load` followed by the constant divisor 100 of the step
computation (line 136). -/
def eco_tick_divisors (units : List (EcoCpuStats × CpuSample))
    (b : PolicyBounds) : List Nat :=
  eco_load_divisors units b.max ++ [100]

/-- Validity of one unit's stored stats and fresh sample, as assumed by
the spec: the stored invariant `prev_busy ≤ prev_total`, monotonically
non-decreasing wall and idle counters, idle counter at most the wall
counter, and per-unit idle delta at most the wall delta. -/
abbrev ValidUnit (u : EcoCpuStats × CpuSample) : Prop :=
  u.1.prev_busy_time ≤ u.1.prev_total_time ∧
  u.1.prev_total_time ≤ u.2.cur_wall_time ∧
  u.2.cur_idle_time ≤ u.2.cur_wall_time ∧
  u.1.prev_total_time - u.1.prev_busy_time ≤ u.2.cur_idle_time ∧
  u.2.cur_idle_time - (u.1.prev_total_time - u.1.prev_busy_time) ≤
    u.2.cur_wall_time - u.1.prev_total_time

/-- Sum of the freshly read wall-time counters of a tick's units; used to
bound the accumulated totals. -/
abbrev wallSum (units : List (EcoCpuStats × CpuSample)) : Nat :=
  (units.map fun u => u.2.cur_wall_time).sum

/-- A request is within the policy bounds supplied at the tick (trivially
true when no request is emitted). -/
def RequestInRange (b : PolicyBounds) : Option FreqRequest → Prop
  | none => True
  | some req => b.min ≤ req.target ∧ req.target ≤ b.max

lemma U32_eq : U32 = 4294967296 := by decide

lemma U64_eq : U64 = 18446744073709551616 := by norm_num [U64]

lemma sub64_eq {a b : Nat} (hba : b ≤ a) (ha : a < U64) : sub64 a b = a - b := by
  unfold sub64
  have h1 : U64 + a - b = U64 + (a - b) := by omega
  rw [h1, Nat.add_mod_left]
  exact Nat.mod_eq_of_lt (by omega)

lemma sub64_self (a : Nat) : sub64 a a = 0 := by
  simp [sub64]

lemma eco_effective_load_nonneg (load : Nat) (bias : Int) :
    0 ≤ eco_effective_load load bias := by
  simp only [eco_effective_load]
  split_ifs <;> omega

lemma eco_effective_load_le (load : Nat) (bias : Int) :
    eco_effective_load load bias ≤ 100 := by
  simp only [eco_effective_load]
  split_ifs <;> omega

lemma eco_freq_step_khz_pos (maxf freq_step : Nat) :
    0 < eco_freq_step_khz maxf freq_step := by
  simp only [eco_freq_step_khz]
  split_ifs with h
  · omega
  · omega

lemma eco_freq_step_khz_le (maxf freq_step : Nat) (hfs : freq_step ≤ 100)
    (hb : maxf * 100 < U32) : eco_freq_step_khz maxf freq_step ≤ maxf + 1000 := by
  simp only [eco_freq_step_khz]
  split_ifs with h
  · omega
  · have h1 : maxf * freq_step ≤ maxf * 100 := Nat.mul_le_mul_left maxf hfs
    have h2 : (maxf * freq_step) % U32 = maxf * freq_step :=
      Nat.mod_eq_of_lt (by omega)
    rw [h2]
    have h3 : maxf * freq_step / 100 ≤ maxf * 100 / 100 :=
      Nat.div_le_div_right h1
    omega

lemma eco_down_target_range (minf cur freq_step_khz maxf : Nat)
    (hcm : cur ≤ maxf) (hmm : minf ≤ maxf) :
    minf ≤ eco_down_target minf cur freq_step_khz ∧
      eco_down_target minf cur freq_step_khz ≤ maxf := by
  simp only [eco_down_target]
  split_ifs <;> omega

lemma wallSum_cons (st : EcoCpuStats) (s : CpuSample)
    (rest : List (EcoCpuStats × CpuSample)) :
    wallSum ((st, s) :: rest) = s.cur_wall_time + wallSum rest := by
  simp [wallSum]

lemma eco_unit_deltas (st : EcoCpuStats) (s : CpuSample)
    (h1 : st.prev_busy_time ≤ st.prev_total_time)
    (h2 : st.prev_total_time ≤ s.cur_wall_time)
    (h3 : s.cur_idle_time ≤ s.cur_wall_time)
    (h4 : st.prev_total_time - st.prev_busy_time ≤ s.cur_idle_time)
    (h5 : s.cur_idle_time - (st.prev_total_time - st.prev_busy_time) ≤
      s.cur_wall_time - st.prev_total_time)
    (hw : s.cur_wall_time < U64) :
    eco_unit_dt st s = s.cur_wall_time - st.prev_total_time ∧
      eco_unit_db st s ≤ eco_unit_dt st s := by
  have hdt : eco_unit_dt st s = s.cur_wall_time - st.prev_total_time :=
    sub64_eq h2 hw
  refine ⟨hdt, ?_⟩
  have hpi : sub64 st.prev_total_time st.prev_busy_time =
      st.prev_total_time - st.prev_busy_time :=
    sub64_eq h1 (lt_of_le_of_lt h2 hw)
  have hid : sub64 s.cur_idle_time
      (st.prev_total_time - st.prev_busy_time) =
      s.cur_idle_time - (st.prev_total_time - st.prev_busy_time) :=
    sub64_eq h4 (lt_of_le_of_lt h3 hw)
  have hdb : eco_unit_db st s = eco_unit_dt st s -
      (s.cur_idle_time - (st.prev_total_time - st.prev_busy_time)) := by
    rw [eco_unit_db, hpi, hid]
    exact sub64_eq (by omega) (by omega)
  omega

lemma eco_sample_loop_bound :
    ∀ (units : List (EcoCpuStats × CpuSample)) (busy wall : Nat),
      (∀ u ∈ units, ValidUnit u) → busy ≤ wall →
      (wall + wallSum units) * 100 < U64 →
      (eco_sample_loop units busy wall).2.1 ≤
        (eco_sample_loop units busy wall).2.2 ∧
      (eco_sample_loop units busy wall).2.2 ≤ wall + wallSum units := by
  intro units
  induction units with
  | nil =>
      intro busy wall _ hbw _
      simpa [eco_sample_loop, wallSum] using hbw
  | cons u rest ih =>
      intro busy wall hv hbw hcap
      obtain ⟨st, s⟩ := u
      rw [wallSum_cons] at hcap ⊢
      have hvu : ValidUnit (st, s) := hv _ (List.mem_cons_self _ _)
      have hvrest : ∀ u ∈ rest, ValidUnit u := fun u hu =>
        hv u (List.mem_cons_of_mem _ hu)
      have hS : wall + (s.cur_wall_time + wallSum rest) < U64 := by
        have := Nat.le_mul_of_pos_right
          (wall + (s.cur_wall_time + wallSum rest)) (by norm_num : 0 < 100)
        omega
      have hwlt : s.cur_wall_time < U64 := by omega
      obtain ⟨hdt, hdb⟩ := eco_unit_deltas st s hvu.1 hvu.2.1 hvu.2.2.1
        hvu.2.2.2.1 hvu.2.2.2.2 hwlt
      simp only [eco_sample_loop]
      split_ifs with hpos
      · have hdtle : eco_unit_dt st s ≤ s.cur_wall_time := by omega
        have hwall' : (wall + eco_unit_dt st s) % U64 =
            wall + eco_unit_dt st s := Nat.mod_eq_of_lt (by omega)
        have hbusy' : (busy + eco_unit_db st s) % U64 =
            busy + eco_unit_db st s := Nat.mod_eq_of_lt (by omega)
        rw [hwall', hbusy']
        dsimp only
        have hrec := ih (busy + eco_unit_db st s) (wall + eco_unit_dt st s)
          hvrest (by omega)
          (by
            have : (wall + eco_unit_dt st s + wallSum rest) * 100 ≤
                (wall + (s.cur_wall_time + wallSum rest)) * 100 :=
              Nat.mul_le_mul_right 100 (by omega)
            omega)
        constructor
        · exact hrec.1
        · have := hrec.2
          omega
      · dsimp only
        have hrec := ih busy wall hvrest hbw
          (by
            have : (wall + wallSum rest) * 100 ≤
                (wall + (s.cur_wall_time + wallSum rest)) * 100 :=
              Nat.mul_le_mul_right 100 (by omega)
            omega)
        constructor
        · exact hrec.1
        · have := hrec.2
          omega

lemma eco_raw_usage_le (units : List (EcoCpuStats × CpuSample))
    (hv : ∀ u ∈ units, ValidUnit u) (hcap : wallSum units * 100 < U64)
    (hw : 0 < (eco_sample_loop units 0 0).2.2) :
    ((eco_sample_loop units 0 0).2.1 * 100) % U64 /
      (eco_sample_loop units 0 0).2.2 ≤ 100 := by
  have hb := eco_sample_loop_bound units 0 0 hv (le_refl 0) (by simpa using hcap)
  set busy := (eco_sample_loop units 0 0).2.1 with hbdef
  set wall := (eco_sample_loop units 0 0).2.2 with hwdef
  have hble : busy * 100 ≤ wall * 100 := Nat.mul_le_mul_right 100 hb.1
  have hwle : wall * 100 ≤ wallSum units * 100 :=
    Nat.mul_le_mul_right 100 (by simpa using hb.2)
  have hmod : (busy * 100) % U64 = busy * 100 := Nat.mod_eq_of_lt (by omega)
  rw [hmod]
  calc busy * 100 / wall ≤ wall * 100 / wall := Nat.div_le_div_right hble
    _ = 100 := Nat.mul_div_cancel_left 100 hw

lemma eco_calculate_load_le (units : List (EcoCpuStats × CpuSample))
    (cur maxf : Nat) (hv : ∀ u ∈ units, ValidUnit u)
    (hcap : wallSum units * 100 < U64) (hcm : cur ≤ maxf) (hm : 0 < maxf) :
    eco_calculate_load units cur maxf ≤ 100 := by
  simp only [eco_calculate_load]
  split_ifs with hw
  · have hraw := eco_raw_usage_le units hv hcap hw
    set raw0 := ((eco_sample_loop units 0 0).2.1 * 100) % U64 /
      (eco_sample_loop units 0 0).2.2 with hraw0
    have hraw32 : raw0 % U32 = raw0 := Nat.mod_eq_of_lt (by rw [U32_eq]; omega)
    rw [hraw32]
    have h1 : (raw0 * cur) % U32 ≤ raw0 * cur := Nat.mod_le _ _
    have h2 : raw0 * cur ≤ 100 * maxf := Nat.mul_le_mul hraw hcm
    calc (raw0 * cur) % U32 / maxf ≤ 100 * maxf / maxf :=
          Nat.div_le_div_right (by omega)
      _ = 100 := by
          rw [Nat.mul_comm]
          exact Nat.mul_div_cancel_left 100 hm
  · omega

lemma eco_load_zero_of_wall_zero (units : List (EcoCpuStats × CpuSample))
    (cur maxf : Nat) (hw : (eco_sample_loop units 0 0).2.2 = 0) :
    eco_calculate_load units cur maxf = 0 := by
  simp [eco_calculate_load, hw]

lemma eco_dbs_update_above (t : EcoTuners) (b : PolicyBounds)
    (down_count load : Nat)
    (h : (t.up_threshold : Int) < eco_effective_load load t.powersave_bias) :
    eco_dbs_update t b down_count load =
      eco_up_branch b (eco_freq_step_khz b.max t.freq_step) := by
  simp only [eco_dbs_update]
  rw [if_pos h]

lemma eco_dbs_update_below (t : EcoTuners) (b : PolicyBounds)
    (down_count load : Nat)
    (h : eco_effective_load load t.powersave_bias < (t.down_threshold : Int))
    (hdu : t.down_threshold ≤ t.up_threshold) :
    eco_dbs_update t b down_count load =
      eco_down_branch b (eco_freq_step_khz b.max t.freq_step) down_count
        t.sampling_down_factor := by
  simp only [eco_dbs_update]
  rw [if_neg (by omega), if_pos h]

lemma eco_dbs_update_band (t : EcoTuners) (b : PolicyBounds)
    (down_count load : Nat)
    (h1 : ¬ (t.up_threshold : Int) < eco_effective_load load t.powersave_bias)
    (h2 : ¬ eco_effective_load load t.powersave_bias < (t.down_threshold : Int)) :
    eco_dbs_update t b down_count load = (0, none) := by
  simp only [eco_dbs_update]
  rw [if_neg h1, if_neg h2]

lemma eco_down_branch_hold (b : PolicyBounds) (freq_step_khz down_count
    factor : Nat) (h : down_count + 1 < factor) (h32 : down_count + 1 < U32) :
    eco_down_branch b freq_step_khz down_count factor = (down_count + 1, none) := by
  simp only [eco_down_branch]
  rw [Nat.mod_eq_of_lt h32, if_neg (by omega)]

lemma eco_down_branch_fire (b : PolicyBounds) (freq_step_khz down_count
    factor : Nat) (h : factor ≤ down_count + 1) (h32 : down_count + 1 < U32)
    (hcur : b.min < b.cur) :
    eco_down_branch b freq_step_khz down_count factor =
      (0, some ⟨eco_down_target b.min b.cur freq_step_khz,
        CpufreqRelation.RELATION_L⟩) := by
  simp only [eco_down_branch]
  rw [Nat.mod_eq_of_lt h32, if_pos h, if_pos hcur]

lemma eco_step_no_wrap (t : EcoTuners) (b : PolicyBounds)
    (hfs : t.freq_step ≤ 100) (hb : b.max * 100 < U32) (hcm : b.cur ≤ b.max) :
    b.cur + eco_freq_step_khz b.max t.freq_step < U32 := by
  have h := eco_freq_step_khz_le b.max t.freq_step hfs hb
  rw [U32_eq] at hb ⊢
  omega

lemma eco_up_branch_eq (b : PolicyBounds) (freq_step_khz : Nat)
    (hcur : b.cur < b.max) (hw : b.cur + freq_step_khz < U32) :
    eco_up_branch b freq_step_khz =
      (0, some ⟨min (b.cur + freq_step_khz) b.max,
        CpufreqRelation.RELATION_H⟩) := by
  simp only [eco_up_branch]
  rw [if_pos hcur, Nat.mod_eq_of_lt hw]
  have : (if b.max < b.cur + freq_step_khz then b.max
      else b.cur + freq_step_khz) = min (b.cur + freq_step_khz) b.max := by
    split_ifs <;> omega
  rw [this]

lemma eco_request_in_range (t : EcoTuners) (b : PolicyBounds)
    (down_count load : Nat) (h1 : b.min ≤ b.cur) (h2 : b.cur ≤ b.max)
    (hfs : t.freq_step ≤ 100) (hb : b.max * 100 < U32) :
    RequestInRange b (eco_dbs_update t b down_count load).2 := by
  have hw := eco_step_no_wrap t b hfs hb h2
  simp only [eco_dbs_update]
  split_ifs with hup hdown
  · simp only [eco_up_branch]
    rw [Nat.mod_eq_of_lt hw]
    split_ifs with hcur hlt
    · exact ⟨by dsimp only; omega, by dsimp only; omega⟩
    · exact ⟨by dsimp only; omega, by dsimp only; omega⟩
    · exact trivial
  · simp only [eco_down_branch]
    split_ifs with hfac hcur
    · exact eco_down_target_range b.min b.cur _ b.max h2 (le_trans h1 h2)
    · exact trivial
    · exact trivial
  · exact trivial

lemma eco_run_cons (t : EcoTuners) (b : PolicyBounds) (down_count load : Nat)
    (loads : List Nat) :
    eco_run t b down_count (load :: loads) =
      ((eco_run t b (eco_dbs_update t b down_count load).1 loads).1,
        (eco_dbs_update t b down_count load).2 ::
          (eco_run t b (eco_dbs_update t b down_count load).1 loads).2) := rfl

lemma eco_run_below_aux (t : EcoTuners) (b : PolicyBounds)
    (hdu : t.down_threshold ≤ t.up_threshold) (hcur : b.min < b.cur)
    (hfac : t.sampling_down_factor < U32) :
    ∀ (loads : List Nat) (down_count : Nat),
      down_count + loads.length = t.sampling_down_factor →
      down_count < t.sampling_down_factor →
      (∀ l ∈ loads, eco_effective_load l t.powersave_bias <
        (t.down_threshold : Int)) →
      eco_run t b down_count loads =
        (0, List.replicate (loads.length - 1) none ++
          [some ⟨eco_down_target b.min b.cur
            (eco_freq_step_khz b.max t.freq_step),
            CpufreqRelation.RELATION_L⟩]) := by
  intro loads
  induction loads with
  | nil =>
      intro down_count hlen hlt _
      simp at hlen
      omega
  | cons l ls ih =>
      intro down_count hlen hlt hbelow
      have hbl : eco_effective_load l t.powersave_bias <
          (t.down_threshold : Int) := hbelow l (List.mem_cons_self _ _)
      have hbls : ∀ x ∈ ls, eco_effective_load x t.powersave_bias <
          (t.down_threshold : Int) := fun x hx =>
        hbelow x (List.mem_cons_of_mem _ hx)
      simp only [List.length_cons] at hlen
      cases ls with
      | nil =>
          have hfire : t.sampling_down_factor ≤ down_count + 1 := by
            simp only [List.length_nil] at hlen
            omega
          have h32 : down_count + 1 < U32 := by
            simp only [List.length_nil] at hlen
            omega
          rw [eco_run_cons, eco_dbs_update_below t b down_count l hbl hdu,
            eco_down_branch_fire b _ down_count t.sampling_down_factor hfire
              h32 hcur]
          rfl
      | cons l2 ls2 =>
          simp only [List.length_cons] at hlen
          have hhold : down_count + 1 < t.sampling_down_factor := by omega
          have hupd := eco_dbs_update_below t b down_count l hbl hdu
          have hstep := eco_down_branch_hold b
            (eco_freq_step_khz b.max t.freq_step) down_count
            t.sampling_down_factor hhold (by omega)
          have hrec := ih (down_count + 1)
            (by simp only [List.length_cons]; omega) (by omega) hbls
          rw [eco_run_cons, hupd, hstep]
          dsimp only
          rw [hrec]
          simp [List.replicate_succ]

lemma eco_run_band_aux (t : EcoTuners) (b : PolicyBounds) :
    ∀ (loads : List Nat),
      (∀ l ∈ loads, (t.down_threshold : Int) <
          eco_effective_load l t.powersave_bias ∧
        eco_effective_load l t.powersave_bias < (t.up_threshold : Int)) →
      eco_run t b 0 loads = (0, List.replicate loads.length none) := by
  intro loads
  induction loads with
  | nil => intro _; rfl
  | cons l ls ih =>
      intro hband
      obtain ⟨hd, hu⟩ := hband l (List.mem_cons_self _ _)
      have hupd := eco_dbs_update_band t b 0 l (by omega) (by omega)
      have hrec := ih fun x hx => hband x (List.mem_cons_of_mem _ hx)
      simp only [eco_run, hupd, hrec]
      simp [List.replicate_succ]

/-- Claim C1: for a valid tick (monotone counters with idle delta at most
the wall delta, counters small enough not to overflow the `u64`
accumulation, bounds with `min ≤ cur ≤ max`, `0 < max` fitting `unsigned
int` step arithmetic, and a percentage `freq_step`), the computed load
and the clamped effective load lie in `[0, 100]`, and any frequency
request emitted by the tick lies within `[min, max]`. -/
theorem eco_tick_invariants (t : EcoTuners) (b : PolicyBounds)
    (units : List (EcoCpuStats × CpuSample)) (down_count : Nat)
    (hv : ∀ u ∈ units, ValidUnit u) (hcap : wallSum units * 100 < U64)
    (h1 : b.min ≤ b.cur) (h2 : b.cur ≤ b.max) (hm : 0 < b.max)
    (hfs : t.freq_step ≤ 100) (hb : b.max * 100 < U32) :
    eco_calculate_load units b.cur b.max ≤ 100 ∧
    0 ≤ eco_effective_load (eco_calculate_load units b.cur b.max)
      t.powersave_bias ∧
    eco_effective_load (eco_calculate_load units b.cur b.max)
      t.powersave_bias ≤ 100 ∧
    RequestInRange b (eco_dbs_tick t b down_count units).2 :=
  ⟨eco_calculate_load_le units b.cur b.max hv hcap h2 hm,
   eco_effective_load_nonneg _ _,
   eco_effective_load_le _ _,
   eco_request_in_range t b down_count _ h1 h2 hfs hb⟩

/-- Witness for C1 at a concrete valid tick. -/
theorem eco_tick_invariants_witness :
    eco_calculate_load [(⟨0, 0⟩, ⟨99, 100⟩)] 1500 2000 ≤ 100 ∧
    0 ≤ eco_effective_load
      (eco_calculate_load [(⟨0, 0⟩, ⟨99, 100⟩)] 1500 2000) 0 ∧
    eco_effective_load
      (eco_calculate_load [(⟨0, 0⟩, ⟨99, 100⟩)] 1500 2000) 0 ≤ 100 ∧
    RequestInRange ⟨1000, 1500, 2000⟩
      (eco_dbs_tick ⟨80, 20, 5, 10000, 1, 0⟩ ⟨1000, 1500, 2000⟩ 0
        [(⟨0, 0⟩, ⟨99, 100⟩)]).2 :=
  eco_tick_invariants ⟨80, 20, 5, 10000, 1, 0⟩ ⟨1000, 1500, 2000⟩
    [(⟨0, 0⟩, ⟨99, 100⟩)] 0 (by decide) (by decide) (by decide) (by decide)
    (by decide) (by decide) (by decide)

/-- Claim C2: with `sampling_down_factor = N`, starting from
`down_count = 0` with `cur > min`, a run of `N` ticks whose effective
loads are all strictly below `down_threshold` emits no request on the
first `N - 1` ticks and exactly one step-down request on the `N`-th tick,
after which `down_count` is 0 again. -/
theorem eco_down_debounce (t : EcoTuners) (b : PolicyBounds)
    (loads : List Nat) (hN : loads.length = t.sampling_down_factor)
    (hpos : 0 < t.sampling_down_factor)
    (hfac : t.sampling_down_factor < U32)
    (hdu : t.down_threshold ≤ t.up_threshold) (hcur : b.min < b.cur)
    (hbelow : ∀ l ∈ loads, eco_effective_load l t.powersave_bias <
      (t.down_threshold : Int)) :
    eco_run t b 0 loads =
      (0, List.replicate (loads.length - 1) none ++
        [some ⟨eco_down_target b.min b.cur
          (eco_freq_step_khz b.max t.freq_step),
          CpufreqRelation.RELATION_L⟩]) :=
  eco_run_below_aux t b hdu hcur hfac loads 0 (by omega) (by omega) hbelow

/-- Witness for C2: three below-threshold ticks with factor 3 emit
nothing twice, then one step-down. -/
theorem eco_down_debounce_witness :
    eco_run ⟨80, 20, 5, 10000, 3, 0⟩ ⟨1000, 1500, 2000⟩ 0 [10, 10, 10] =
      (0, List.replicate ([10, 10, 10].length - 1) none ++
        [some ⟨eco_down_target 1000 1500 (eco_freq_step_khz 2000 5),
          CpufreqRelation.RELATION_L⟩]) :=
  eco_down_debounce ⟨80, 20, 5, 10000, 3, 0⟩ ⟨1000, 1500, 2000⟩ [10, 10, 10]
    (by decide) (by decide) (by decide) (by decide) (by decide) (by decide)

/-- Claim C3: a tick whose effective load is strictly above
`up_threshold` resets `down_count` to 0 regardless of its prior value,
and when `cur < max` it immediately emits a step-up request for
`min (cur + step) max`. -/
theorem eco_step_up_immediate (t : EcoTuners) (b : PolicyBounds)
    (down_count load : Nat)
    (habove : (t.up_threshold : Int) <
      eco_effective_load load t.powersave_bias)
    (hfs : t.freq_step ≤ 100) (hb : b.max * 100 < U32)
    (hcm : b.cur ≤ b.max) :
    (eco_dbs_update t b down_count load).1 = 0 ∧
    (b.cur < b.max →
      eco_dbs_update t b down_count load =
        (0, some ⟨min (b.cur + eco_freq_step_khz b.max t.freq_step) b.max,
          CpufreqRelation.RELATION_H⟩)) := by
  have hup := eco_dbs_update_above t b down_count load habove
  constructor
  · rw [hup]
    simp only [eco_up_branch]
    split_ifs <;> rfl
  · intro hcur
    rw [hup, eco_up_branch_eq b _ hcur (eco_step_no_wrap t b hfs hb hcm)]

/-- Witness for C3 at a concrete above-threshold tick with a stale
`down_count` of 7. -/
theorem eco_step_up_immediate_witness :
    (eco_dbs_update ⟨80, 20, 5, 10000, 1, 0⟩ ⟨1000, 1500, 2000⟩ 7 90).1 = 0 ∧
    eco_dbs_update ⟨80, 20, 5, 10000, 1, 0⟩ ⟨1000, 1500, 2000⟩ 7 90 =
      (0, some ⟨min (1500 + eco_freq_step_khz 2000 5) 2000,
        CpufreqRelation.RELATION_H⟩) :=
  ⟨(eco_step_up_immediate ⟨80, 20, 5, 10000, 1, 0⟩ ⟨1000, 1500, 2000⟩ 7 90
      (by decide) (by decide) (by decide) (by decide)).1,
   (eco_step_up_immediate ⟨80, 20, 5, 10000, 1, 0⟩ ⟨1000, 1500, 2000⟩ 7 90
      (by decide) (by decide) (by decide) (by decide)).2 (by decide)⟩

/-- Claim C7: over any run of ticks whose effective loads all lie
strictly between the two thresholds, no request is ever emitted and
`down_count`, starting from 0, stays 0 after every prefix of the run. -/
theorem eco_hysteresis_hold (t : EcoTuners) (b : PolicyBounds)
    (loads : List Nat)
    (hband : ∀ l ∈ loads, (t.down_threshold : Int) <
        eco_effective_load l t.powersave_bias ∧
      eco_effective_load l t.powersave_bias < (t.up_threshold : Int)) :
    eco_run t b 0 loads = (0, List.replicate loads.length none) ∧
    ∀ n, (eco_run t b 0 (List.take n loads)).1 = 0 := by
  refine ⟨eco_run_band_aux t b loads hband, ?_⟩
  intro n
  rw [eco_run_band_aux t b (List.take n loads)
    (fun l hl => hband l (List.take_subset n loads hl))]

/-- Witness for C7 on a concrete three-tick in-band run. -/
theorem eco_hysteresis_hold_witness :
    eco_run ⟨80, 20, 5, 10000, 1, 0⟩ ⟨1000, 1500, 2000⟩ 0 [50, 45, 60] =
      (0, List.replicate [50, 45, 60].length none) ∧
    (eco_run ⟨80, 20, 5, 10000, 1, 0⟩ ⟨1000, 1500, 2000⟩ 0
      (List.take 2 [50, 45, 60])).1 = 0 :=
  ⟨(eco_hysteresis_hold ⟨80, 20, 5, 10000, 1, 0⟩ ⟨1000, 1500, 2000⟩
      [50, 45, 60] (by decide)).1,
   (eco_hysteresis_hold ⟨80, 20, 5, 10000, 1, 0⟩ ⟨1000, 1500, 2000⟩
      [50, 45, 60] (by decide)).2 2⟩

/-- Counterexample to C4 as stated: with one unit contributing busy
delta 1 over wall delta 100 (raw usage 1) and `max = 2000`, the load at
`cur = 2000` is 1 but at the halved `cur = 1000` it is 0 — halving the
frequency does not halve the reported load under integer division. -/
theorem eco_halving_not_exact :
    eco_calculate_load [(⟨0, 0⟩, ⟨99, 100⟩)] 2000 2000 = 1 ∧
    eco_calculate_load [(⟨0, 0⟩, ⟨99, 100⟩)] 1000 2000 = 0 ∧
    ¬ (2 * eco_calculate_load [(⟨0, 0⟩, ⟨99, 100⟩)] 1000 2000 =
      eco_calculate_load [(⟨0, 0⟩, ⟨99, 100⟩)] 2000 2000) := by
  decide

/-- Claim C4 (amended): for a fixed tick sample the load is
`raw_usage * cur / max` with integer division, so it scales with
`cur / max` only up to the floor of that division; halving `cur` with
`max` fixed yields the floor of half the original load, not the exact
half. -/
theorem eco_halving_floor (units : List (EcoCpuStats × CpuSample))
    (cur maxf : Nat) (hv : ∀ u ∈ units, ValidUnit u)
    (hcap : wallSum units * 100 < U64) (_hm : 0 < maxf)
    (hcur : cur * 200 < U32) :
    eco_calculate_load units cur maxf =
      eco_calculate_load units (2 * cur) maxf / 2 := by
  simp only [eco_calculate_load]
  split_ifs with hw
  · have hraw := eco_raw_usage_le units hv hcap hw
    set raw0 := ((eco_sample_loop units 0 0).2.1 * 100) % U64 /
      (eco_sample_loop units 0 0).2.2 with hraw0
    have hr32 : raw0 % U32 = raw0 := Nat.mod_eq_of_lt (by
      rw [U32_eq]
      omega)
    rw [hr32]
    have hle1 : raw0 * cur ≤ 100 * cur := Nat.mul_le_mul_right cur hraw
    have hle2 : raw0 * (2 * cur) ≤ 100 * (2 * cur) :=
      Nat.mul_le_mul_right _ hraw
    have hm1 : (raw0 * cur) % U32 = raw0 * cur := Nat.mod_eq_of_lt (by
      rw [U32_eq] at hcur ⊢
      omega)
    have hm2 : (raw0 * (2 * cur)) % U32 = raw0 * (2 * cur) :=
      Nat.mod_eq_of_lt (by
        rw [U32_eq] at hcur ⊢
        omega)
    rw [hm1, hm2, Nat.div_div_eq_div_mul]
    have h2 : raw0 * (2 * cur) = 2 * (raw0 * cur) := by ring
    have h3 : maxf * 2 = 2 * maxf := by ring
    rw [h2, h3, Nat.mul_div_mul_left (raw0 * cur) maxf (by norm_num)]
  · rfl

/-- Witness for the amended C4 on a concrete tick: the load at
`cur = 500` equals the floor of half the load at `cur = 1000`. -/
theorem eco_halving_floor_witness :
    eco_calculate_load [(⟨0, 0⟩, ⟨99, 100⟩)] 500 2000 =
      eco_calculate_load [(⟨0, 0⟩, ⟨99, 100⟩)] (2 * 500) 2000 / 2 :=
  eco_halving_floor [(⟨0, 0⟩, ⟨99, 100⟩)] 500 2000 (by decide) (by decide)
    (by decide) (by decide)

/-- Counterexample to C5 as stated: a unit whose wall counter went
backwards (fresh wall 3 below stored total 10, a counter reset) does not
contribute "nothing" — the `u64` subtraction wraps to `2 ^ 64 - 7`,
which passes the `dt > 0` guard and is accumulated into the wall
total. -/
theorem eco_negative_delta_contributes :
    (eco_sample_loop [(⟨10, 5⟩, ⟨5, 3⟩)] 0 0).2.2 = U64 - 7 ∧
    ¬ (eco_sample_loop [(⟨10, 5⟩, ⟨5, 3⟩)] 0 0).2.2 = 0 := by
  decide

/-- Claim C5 (amended): a unit whose wall-time delta is exactly zero
contributes nothing to the busy and wall totals of the tick — the sample
is skipped with no error — while its stored stats are still updated to
the freshly read `wall_time` and `wall_time - idle_time`; a backwards
wall counter instead wraps modulo `2 ^ 64` and is accumulated. -/
theorem eco_zero_delta_skipped (st : EcoCpuStats) (s : CpuSample)
    (rest : List (EcoCpuStats × CpuSample)) (busy wall : Nat)
    (hz : s.cur_wall_time = st.prev_total_time)
    (hi : s.cur_idle_time ≤ s.cur_wall_time) (hw : s.cur_wall_time < U64) :
    eco_sample_loop ((st, s) :: rest) busy wall =
      (eco_unit_update st s :: (eco_sample_loop rest busy wall).1,
        (eco_sample_loop rest busy wall).2) ∧
    eco_unit_update st s =
      ⟨s.cur_wall_time, s.cur_wall_time - s.cur_idle_time⟩ := by
  have hdt : eco_unit_dt st s = 0 := by
    rw [eco_unit_dt, hz, sub64_self]
  constructor
  · simp [eco_sample_loop, hdt]
  · simp only [eco_unit_update]
    rw [sub64_eq hi hw]

/-- Witness for the amended C5 on a concrete zero-delta unit. -/
theorem eco_zero_delta_skipped_witness :
    eco_sample_loop [(⟨10, 4⟩, ⟨6, 10⟩)] 0 0 =
      (eco_unit_update ⟨10, 4⟩ ⟨6, 10⟩ :: (eco_sample_loop [] 0 0).1,
        (eco_sample_loop [] 0 0).2) ∧
    eco_unit_update ⟨10, 4⟩ ⟨6, 10⟩ = ⟨10, 10 - 6⟩ :=
  eco_zero_delta_skipped ⟨10, 4⟩ ⟨6, 10⟩ [] 0 0 (by decide) (by decide)
    (by decide)

/-- Counterexample to C6 as stated: on a tick with zero accumulated wall
time, `down_threshold = 20 > 0`, but `powersave_bias = -50`, the zero
load's effective load is 50, which lands in the hysteresis band —
`down_count` stays 0 instead of being incremented. -/
theorem eco_zero_wall_bias_counterexample :
    eco_calculate_load [(⟨5, 2⟩, ⟨1, 5⟩)] 1500 2000 = 0 ∧
    eco_dbs_tick ⟨80, 20, 5, 10000, 5, -50⟩ ⟨1000, 1500, 2000⟩ 0
      [(⟨5, 2⟩, ⟨1, 5⟩)] = (0, none) := by
  decide

/-- Claim C6 (amended): on a tick whose accumulated wall delta is zero
the load is 0, and provided the bias does not lift the clamped zero load
to `down_threshold` or above (in particular whenever
`powersave_bias ≥ 0`) and the thresholds are ordered, the below-threshold
path is taken; while the debounce is still counting this increments
`down_count` with no actuation. -/
theorem eco_zero_wall_down_path (t : EcoTuners) (b : PolicyBounds)
    (units : List (EcoCpuStats × CpuSample)) (down_count : Nat)
    (hw : (eco_sample_loop units 0 0).2.2 = 0) (hdt : 0 < t.down_threshold)
    (hbias : -t.powersave_bias < (t.down_threshold : Int))
    (hdu : t.down_threshold ≤ t.up_threshold) (h32 : down_count + 1 < U32) :
    eco_calculate_load units b.cur b.max = 0 ∧
    eco_dbs_tick t b down_count units =
      eco_down_branch b (eco_freq_step_khz b.max t.freq_step) down_count
        t.sampling_down_factor ∧
    (down_count + 1 < t.sampling_down_factor →
      eco_dbs_tick t b down_count units = (down_count + 1, none)) := by
  have hload := eco_load_zero_of_wall_zero units b.cur b.max hw
  have h0 : int_of_u32 0 = 0 := by decide
  have hel : eco_effective_load 0 t.powersave_bias <
      (t.down_threshold : Int) := by
    simp only [eco_effective_load, h0]
    split_ifs <;> omega
  refine ⟨hload, ?_, ?_⟩
  · show eco_dbs_update t b down_count
      (eco_calculate_load units b.cur b.max) = _
    rw [hload]
    exact eco_dbs_update_below t b down_count 0 hel hdu
  · intro hhold
    show eco_dbs_update t b down_count
      (eco_calculate_load units b.cur b.max) = _
    rw [hload, eco_dbs_update_below t b down_count 0 hel hdu,
      eco_down_branch_hold b _ down_count t.sampling_down_factor hhold h32]

/-- Witness for the amended C6 on a concrete zero-wall tick with zero
bias and factor 3. -/
theorem eco_zero_wall_down_path_witness :
    eco_calculate_load [(⟨5, 2⟩, ⟨1, 5⟩)] 1500 2000 = 0 ∧
    eco_dbs_tick ⟨80, 20, 5, 10000, 3, 0⟩ ⟨1000, 1500, 2000⟩ 0
      [(⟨5, 2⟩, ⟨1, 5⟩)] =
      eco_down_branch ⟨1000, 1500, 2000⟩ (eco_freq_step_khz 2000 5) 0 3 ∧
    eco_dbs_tick ⟨80, 20, 5, 10000, 3, 0⟩ ⟨1000, 1500, 2000⟩ 0
      [(⟨5, 2⟩, ⟨1, 5⟩)] = (1, none) :=
  ⟨(eco_zero_wall_down_path ⟨80, 20, 5, 10000, 3, 0⟩ ⟨1000, 1500, 2000⟩
      [(⟨5, 2⟩, ⟨1, 5⟩)] 0 (by decide) (by decide) (by decide) (by decide)
      (by decide)).1,
   (eco_zero_wall_down_path ⟨80, 20, 5, 10000, 3, 0⟩ ⟨1000, 1500, 2000⟩
      [(⟨5, 2⟩, ⟨1, 5⟩)] 0 (by decide) (by decide) (by decide) (by decide)
      (by decide)).2.1,
   (eco_zero_wall_down_path ⟨80, 20, 5, 10000, 3, 0⟩ ⟨1000, 1500, 2000⟩
      [(⟨5, 2⟩, ⟨1, 5⟩)] 0 (by decide) (by decide) (by decide) (by decide)
      (by decide)).2.2 (by decide)⟩

/-- Claim C8: the bias adjustment is the pure clamp
`effective_load = clamp(load - powersave_bias, 0, 100)`; concretely,
bias 30 on load 40 gives effective load 10, which with
`down_threshold = 20` engages the step-down path — immediately firing
with factor 1, or merely incrementing `down_count` with factor 2. -/
theorem eco_bias_adjuster (load : Nat) (bias : Int) (hl : load < 2 ^ 31) :
    eco_effective_load load bias = max 0 (min 100 ((load : Int) - bias)) ∧
    eco_effective_load 40 30 = 10 ∧
    eco_dbs_update ⟨80, 20, 5, 10000, 1, 30⟩ ⟨1000, 1500, 2000⟩ 0 40 =
      (0, some ⟨1400, CpufreqRelation.RELATION_L⟩) ∧
    eco_dbs_update ⟨80, 20, 5, 10000, 2, 30⟩ ⟨1000, 1500, 2000⟩ 0 40 =
      (1, none) := by
  refine ⟨?_, by decide, by decide, by decide⟩
  have hmod : load % U32 = load := Nat.mod_eq_of_lt (by
    rw [U32_eq]
    omega)
  have hcast : int_of_u32 load = (load : Int) := by
    simp only [int_of_u32, hmod]
    rw [if_pos hl]
  simp only [eco_effective_load, hcast]
  split_ifs <;> omega

/-- Witness for C8 at load 40, bias 30. -/
theorem eco_bias_adjuster_witness :
    eco_effective_load 40 30 = max 0 (min 100 (((40 : Nat) : Int) - 30)) ∧
    eco_effective_load 40 30 = 10 ∧
    eco_dbs_update ⟨80, 20, 5, 10000, 1, 30⟩ ⟨1000, 1500, 2000⟩ 0 40 =
      (0, some ⟨1400, CpufreqRelation.RELATION_L⟩) ∧
    eco_dbs_update ⟨80, 20, 5, 10000, 2, 30⟩ ⟨1000, 1500, 2000⟩ 0 40 =
      (1, none) :=
  eco_bias_adjuster 40 30 (by decide)

/-- Claim C9: the step size used for actuation is never zero — whenever
`max * freq_step / 100` computes to 0 (in particular for a configured
`freq_step` of 0) the fixed minimum step of 1000 kHz is substituted. -/
theorem eco_step_never_zero (maxf freq_step : Nat) :
    0 < eco_freq_step_khz maxf freq_step ∧
    (((maxf * freq_step) % U32) / 100 = 0 →
      eco_freq_step_khz maxf freq_step = 1000) := by
  refine ⟨eco_freq_step_khz_pos maxf freq_step, ?_⟩
  intro h
  simp [eco_freq_step_khz, h]

/-- Witness for C9 at `freq_step = 0`. -/
theorem eco_step_never_zero_witness :
    0 < eco_freq_step_khz 2000 0 ∧ eco_freq_step_khz 2000 0 = 1000 :=
  ⟨(eco_step_never_zero 2000 0).1, (eco_step_never_zero 2000 0).2 (by decide)⟩

/-- Claim C10: when `max > 0`, no division executed during a tick has a
zero divisor (the division by the accumulated wall time runs only under
the `total_wall_time > 0` guard, and the other divisors are `max` and the
constant 100); when `max = 0` and wall time was accumulated, the load
computation does divide by zero. -/
theorem eco_no_zero_divisor (units : List (EcoCpuStats × CpuSample))
    (b : PolicyBounds) :
    (0 < b.max → 0 ∉ eco_tick_divisors units b) ∧
    (b.max = 0 → 0 < (eco_sample_loop units 0 0).2.2 →
      0 ∈ eco_tick_divisors units b) := by
  constructor
  · intro hm hmem
    simp only [eco_tick_divisors, eco_load_divisors] at hmem
    rcases List.mem_append.mp hmem with h | h
    · split_ifs at h with hw
      · simp only [List.mem_cons, List.not_mem_nil, or_false] at h
        rcases h with h | h <;> omega
      · simp at h
    · simp at h
  · intro hm hw
    simp only [eco_tick_divisors, eco_load_divisors]
    rw [if_pos hw]
    simp [hm]

/-- Witness for C10: all divisors positive on a normal tick, and divisor
0 present when the bounds report `max = 0`. -/
theorem eco_no_zero_divisor_witness :
    0 ∉ eco_tick_divisors [(⟨0, 0⟩, ⟨99, 100⟩)] ⟨1000, 1500, 2000⟩ ∧
    0 ∈ eco_tick_divisors [(⟨0, 0⟩, ⟨99, 100⟩)] ⟨0, 0, 0⟩ :=
  ⟨(eco_no_zero_divisor [(⟨0, 0⟩, ⟨99, 100⟩)] ⟨1000, 1500, 2000⟩).1
      (by decide),
   (eco_no_zero_divisor [(⟨0, 0⟩, ⟨99, 100⟩)] ⟨0, 0, 0⟩).2 (by decide)
      (by decide)⟩

end Ecodemand
